import Mathlib

/-
Verification of the core data-pipeline module (`src/data/mod.rs`) of the
text-correction-utils repository.

Modelling conventions of this shallow embedding:
* Rust strings (`&str`, `String`) are modelled as `List Char` (`Str`), so that
  all text operations are executable and kernel-reducible.  `str::split`,
  `str::trim` and friends are re-implemented on `List Char` with the exact
  semantics of their Rust counterparts (empty pieces are kept, a split of the
  empty string yields one empty piece, ...).
* Machine integers (`usize`, `u32`, `i32`, `u8`) are modelled as `Nat` / `Int`.
  The only operations performed on them in the modelled code (min, saturating
  subtraction, division, comparison) cannot overflow, so no explicit modular
  reduction is needed; `usize::MAX` is modelled as `2 ^ 64 - 1` and Rust
  `saturating_sub` is `Nat` subtraction.
* Fallible Rust code is modelled with `Except`.  A Rust `panic` (from
  `assert!`, `todo!`, `expect`, `unwrap`) is modelled as `Except.error`
  carrying a `RustPanic` value, to keep process-aborting failures apart from
  recoverable `anyhow::Result` errors in the statements that care about the
  difference.
* `ndarray::Array2` is modelled by `Arr2`: the row-major flat data vector
  together with the shape, exactly what `Array2::from_shape_vec` consumes.
* Types that the module uses but that live in crates / modules outside the
  sources (the tokenizer, `Tokenization`, the `loading` submodule) are
  modelled from the specification; each such definition says so in its doc
  comment.
-/

namespace TCU

/-- Rust text modelled as a list of characters. -/
abbrev Str := List Char

/-- A Rust panic (`assert!`, `todo!`, `expect`, `unwrap`): aborts the process,
it is never a recoverable in-stream `Err` record. -/
inductive RustPanic where
  | raise : Str → RustPanic
deriving DecidableEq, Repr

/-- Modelled from the spec (§3): `TokenizationInfo` is declared in the
tokenization module, which is not among the sources; it is either plain or
carries named token groups, mappings from a group name to grouping metadata
whose length gives the number of semantic groups.  The `HashMap` is modelled
as an association list. -/
inductive TokenizationInfo where
  | Empty : TokenizationInfo
  | TokenGroups : List (String × List Nat) → TokenizationInfo
deriving DecidableEq, Inhabited, Repr

/-- Modelled from the spec (§3): `Tokenization` is declared in the
tokenization module, which is not among the sources; it is the token ids
(`Vec<u32>`) together with a `TokenizationInfo`. -/
structure Tokenization where
  token_ids : List Nat
  info : TokenizationInfo
deriving DecidableEq, Inhabited, Repr

/-- Modelled from the spec (§6): the external tokenizer interface, reduced to
the two accessors the data module calls. -/
structure Tokenizer where
  pad_token_id : Nat
  num_prefix_tokens : Nat
deriving DecidableEq, Repr

/-- `TextData` from `src/data/mod.rs`. -/
structure TextData where
  original : Str
  processed : Str
  language : Option Str
deriving DecidableEq, Inhabited, Repr

/-- `Label` from `src/data/mod.rs`. -/
inductive Label where
  | Classification : Int → Label
  | SeqClassification : List Int → Label
  | Seq2Seq : List Int → Label
deriving DecidableEq, Inhabited, Repr

/-- The numeric tag of a label variant, used to state (in)homogeneity of the
label variants within one batch. -/
def label_variant : Label → Nat
  | Label.Classification _ => 0
  | Label.SeqClassification _ => 1
  | Label.Seq2Seq _ => 2

/-- Whether a label is the `Seq2Seq` variant. -/
def Label.isSeq2Seq : Label → Bool
  | Label.Seq2Seq _ => true
  | _ => false

/-- The payload of a `SeqClassification` label (`[]` for other variants). -/
def Label.seq_labels : Label → List Int
  | Label.SeqClassification ls => ls
  | _ => []

/-- `Item` from `src/data/mod.rs`. -/
structure Item where
  data : TextData
  tokenization : Tokenization
  label : Label
deriving DecidableEq, Inhabited, Repr

/-- `Batch<T>` from `src/data/mod.rs`. -/
structure Batch (T : Type) where
  items : List T
deriving DecidableEq, Repr

/-- `Batch::len`. -/
def Batch.len {T : Type} (b : Batch T) : Nat := b.items.length

/-- The inner `size` function of `max_groups` in `src/data/mod.rs`
(lines 358-373): the number of semantic groups of one tokenization. -/
def group_size (tokenization : Tokenization) : Nat :=
  match tokenization.info with
  | TokenizationInfo.TokenGroups token_groups =>
    if (token_groups.lookup "code_point_groups").isSome then
      ((token_groups.lookup "code_point_groups").getD []).length
    else if (token_groups.lookup "byte_groups").isSome then
      ((token_groups.lookup "byte_groups").getD []).length
    else tokenization.token_ids.length
  | TokenizationInfo.Empty => tokenization.token_ids.length

/-- `max_groups` from `src/data/mod.rs` (lines 356-375).  Rust
`Iterator::max().unwrap_or(0)` over `usize` is the fold of `Nat.max` with
initial value `0`. -/
def max_groups (tokenizations : List Tokenization) : Nat :=
  (tokenizations.map group_size).foldr Nat.max 0

/-- The `join` helper from `src/data/mod.rs` (lines 377-384): appends a list
of vectors into one vector. -/
def join {T : Type} : List (List T) → List T
  | [] => []
  | v :: rest => v ++ join rest

/-- A row-major 2-dimensional array: `ndarray::Array2` as its shape plus flat
data vector. -/
structure Arr2 (T : Type) where
  rows : Nat
  cols : Nat
  data : List T
deriving DecidableEq, Repr

/-- Entry `(i, j)` of a row-major array (with default `d` out of bounds). -/
def Arr2.entry {T : Type} (a : Arr2 T) (d : T) (i j : Nat) : T :=
  a.data.getD (i * a.cols + j) d

/-- `Array2::from_shape_vec((rows, cols), data)`: succeeds exactly when the
shape product matches the data length. -/
def from_shape_vec {T : Type} (rows cols : Nat) (data : List T) :
    Except RustPanic (Arr2 T) :=
  if rows * cols = data.length then Except.ok ⟨rows, cols, data⟩
  else Except.error (RustPanic.raise "ShapeError".toList)

/-- The `max_token_ids` computation of `prepare` (lines 392-396): the longest
token-id count of the batch (`Iterator::max().unwrap_or(0)` over `usize` is
the fold of `Nat.max` with initial value `0`). -/
def max_token_ids (tokenizations : List Tokenization) : Nat :=
  (tokenizations.map (fun t => t.token_ids.length)).foldr Nat.max 0

/-- One padded row of `prepare`'s loop body (lines 402-406): the token ids
followed by `max_token_ids - num_token_ids` copies of the pad token. -/
def pad_row (m pad_token_id : Nat) (t : Tokenization) : List Nat :=
  join [t.token_ids, List.replicate (m - t.token_ids.length) pad_token_id]

/-- `prepare` from `src/data/mod.rs` (lines 387-416): pads every token-id row
to the longest one with `pad_token_id` and records the unpadded lengths.  The
(always empty) Python info dict is omitted.  The source calls `.unwrap()` on
`from_shape_vec`; the panic is modelled as the error case. -/
def prepare (tokenizations : List Tokenization) (pad_token_id : Nat) :
    Except RustPanic (Arr2 Nat × List Nat) :=
  let batch_size := tokenizations.length
  let token_ids := join (tokenizations.map (pad_row (max_token_ids tokenizations) pad_token_id))
  let lengths := tokenizations.map (fun t => t.token_ids.length)
  match from_shape_vec batch_size (max_token_ids tokenizations) token_ids with
  | Except.ok arr => Except.ok (arr, lengths)
  | Except.error e => Except.error e

/-- The label array of a tensorized training batch: `ArrayD<i32>`, which the
source builds either as a 1-dimensional (`Array1`) or a 2-dimensional
(`Array2`) array. -/
inductive LabelArr where
  | one : List Int → LabelArr
  | two : Arr2 Int → LabelArr
deriving DecidableEq, Repr

/-- Whether a label array is 2-dimensional. -/
def LabelArr.is_two : LabelArr → Bool
  | LabelArr.one _ => false
  | LabelArr.two _ => true

/-- The per-item label row built inside `Tensorize for Batch<Item>::tensorize`
(lines 437-449): `Classification` contributes one cell, `SeqClassification`
the prefix/label/trailing `-1`-padded row (with `saturating_sub`, which is
`Nat` subtraction), `Seq2Seq` hits `todo!()` and panics. -/
def item_labels (mg num_prefix_tokens : Nat) : Label → Except RustPanic (List Int)
  | Label.Classification label => Except.ok [label]
  | Label.SeqClassification labels => Except.ok (join
      [List.replicate num_prefix_tokens (-1), labels,
       List.replicate (mg - (num_prefix_tokens + labels.length)) (-1)])
  | Label.Seq2Seq _ => Except.error (RustPanic.raise "not yet implemented".toList)

/-- The label-accumulation loop of `tensorize` (lines 437-450): appends the
per-item label rows; the first `Seq2Seq` item aborts with a panic. -/
def collect_labels (mg num_prefix_tokens : Nat) : List Item → Except RustPanic (List Int)
  | [] => Except.ok []
  | it :: rest =>
    match item_labels mg num_prefix_tokens it.label with
    | Except.ok ls =>
      match collect_labels mg num_prefix_tokens rest with
      | Except.ok r => Except.ok (ls ++ r)
      | Except.error e => Except.error e
    | Except.error e => Except.error e

/-- `Tensorize for Batch<Item>::tensorize` from `src/data/mod.rs`
(lines 426-466): asserts non-emptiness, pads the token ids via `prepare`,
accumulates the label rows, and returns a 1-dimensional label array when the
flat label count equals the batch size, otherwise reshapes into
`batch_size × (len / batch_size)` (the `.unwrap()` panic on a non-divisible
count is the error case). -/
def tensorize (b : Batch Item) (tokenizer : Tokenizer) :
    Except RustPanic (Arr2 Nat × List Nat × LabelArr) :=
  if b.items.isEmpty then
    Except.error (RustPanic.raise "assertion failed: !self.items.is_empty()".toList)
  else
    match prepare (b.items.map Item.tokenization) tokenizer.pad_token_id with
    | Except.error e => Except.error e
    | Except.ok (token_id_arr, lengths) =>
      let batch_size := b.len
      let mg := max_groups (b.items.map Item.tokenization)
      match collect_labels mg tokenizer.num_prefix_tokens b.items with
      | Except.error e => Except.error e
      | Except.ok labels =>
        if labels.length = batch_size then
          Except.ok (token_id_arr, lengths, LabelArr.one labels)
        else
          match from_shape_vec batch_size (labels.length / batch_size) labels with
          | Except.ok arr => Except.ok (token_id_arr, lengths, LabelArr.two arr)
          | Except.error e => Except.error e

/-- Rust `str::split` with a character predicate, on `List Char`: splits at
every matching character, keeping empty pieces; the empty string yields one
empty piece. -/
def split_pred (p : Char → Bool) : Str → List Str
  | [] => [[]]
  | c :: rest =>
    if p c then [] :: split_pred p rest
    else
      match split_pred p rest with
      | [] => [[c]]
      | piece :: pieces => (c :: piece) :: pieces

/-- Rust `str::split("\t")` on `List Char` (a one-character pattern splits at
every occurrence, keeping empty pieces). -/
def split_tab (s : Str) : List Str := split_pred (fun c => c = '\t') s

/-- Rust `str::trim` on `List Char`: removes leading and trailing whitespace. -/
def trim (s : Str) : Str :=
  ((s.dropWhile Char.isWhitespace).reverse.dropWhile Char.isWhitespace).reverse

/-- Rust `str::parse::<u8>`: an optional leading `+` sign, then at least one
ASCII digit, and the value must fit in eight bits. -/
def parse_u8 (s : Str) : Option Nat :=
  let digits := match s with
    | '+' :: rest => rest
    | other => other
  if digits ≠ [] ∧ digits.all Char.isDigit then
    let v := digits.foldl (fun acc c => acc * 10 + (c.toNat - '0'.toNat)) 0
    if v ≤ 255 then some v else none
  else none

/-- `InferenceDataFileFormat` from `src/data/mod.rs`. -/
inductive InferenceDataFileFormat where
  | Text
  | TextPlusDetections
  | TextPlusLanguage
  | TextPlusDetectionsPlusLanguage
deriving DecidableEq, Repr

/-- `InferenceData` from `src/data/mod.rs`. -/
structure InferenceData where
  original : Str
  detections : Option (List Bool)
  language : Option Str
deriving DecidableEq, Inhabited, Repr

/-- The token loop of `InferenceData::parse_detections` (lines 223-231): each
whitespace-separated token is trimmed and parsed as `u8` (entry `true` iff the
value is nonzero); a token that does not parse hits `expect` and panics. -/
def parse_detections_tokens : List Str → Except RustPanic (List Bool)
  | [] => Except.ok []
  | t :: rest =>
    match parse_u8 (trim t) with
    | some n =>
      match parse_detections_tokens rest with
      | Except.ok r => Except.ok ((n != 0) :: r)
      | Except.error e => Except.error e
    | none =>
      Except.error (RustPanic.raise
        ("failed to parse ".toList ++ t ++ " to integer".toList))

/-- `InferenceData::parse_detections` from `src/data/mod.rs` (lines 223-231):
splits on `char::is_whitespace` and parses every token. -/
def parse_detections (s : Str) : Except RustPanic (List Bool) :=
  parse_detections_tokens (split_pred Char.isWhitespace s)

/-- `InferenceData::from_str` from `src/data/mod.rs` (lines 233-257): splits
the line on tabs according to the format (the `assert_eq!` on the number of
fields panics on a mismatch), parses the detections field where present, and
trims the text (and language) fields. -/
def InferenceData.from_str (s : Str) (format : InferenceDataFileFormat) :
    Except RustPanic InferenceData :=
  match format with
  | InferenceDataFileFormat.Text => Except.ok ⟨trim s, none, none⟩
  | InferenceDataFileFormat.TextPlusDetections =>
    let splits := split_tab s
    if splits.length = 2 then
      match parse_detections (splits.getD 1 []) with
      | Except.ok ds => Except.ok ⟨trim (splits.getD 0 []), some ds, none⟩
      | Except.error e => Except.error e
    else Except.error (RustPanic.raise "assertion failed: splits.len() == 2".toList)
  | InferenceDataFileFormat.TextPlusLanguage =>
    let splits := split_tab s
    if splits.length = 2 then
      Except.ok ⟨trim (splits.getD 0 []), none, some (trim (splits.getD 1 []))⟩
    else Except.error (RustPanic.raise "assertion failed: splits.len() == 2".toList)
  | InferenceDataFileFormat.TextPlusDetectionsPlusLanguage =>
    let splits := split_tab s
    if splits.length = 3 then
      match parse_detections (splits.getD 1 []) with
      | Except.ok ds =>
        Except.ok ⟨trim (splits.getD 0 []), some ds, some (trim (splits.getD 2 []))⟩
      | Except.error e => Except.error e
    else Except.error (RustPanic.raise "assertion failed: splits.len() == 3".toList)

/-- Modelled from the spec (§6.1): the file-backed inference generator (in the
`loading` submodule, which is not among the sources) applies
`InferenceData::from_str` to each line of the file.  Since `from_str` returns
`Self` (no error channel) and its parse failures are panics, a bad line aborts
the whole stream instead of producing a per-line record. -/
def lines_to_records (lines : List Str) (format : InferenceDataFileFormat) :
    Except RustPanic (List InferenceData)
  := match lines with
  | [] => Except.ok []
  | l :: rest =>
    match InferenceData.from_str l format with
    | Except.ok d =>
      match lines_to_records rest format with
      | Except.ok r => Except.ok (d :: r)
      | Except.error e => Except.error e
    | Except.error e => Except.error e

/-- Modelled from the spec (§6): "Parse errors in the detections field are
fatal for that line and emitted as an Err record" — the stream of per-line
records the spec describes, with one `Except` record per input line. -/
def spec_lines_to_records (lines : List Str) (format : InferenceDataFileFormat) :
    List (Except RustPanic InferenceData) :=
  lines.map (fun l => InferenceData.from_str l format)

/-- `Result::ok` (`Except` to `Option`), as used by `filter_map(|d| d.ok())`. -/
def ok_of {E A : Type} : Except E A → Option A
  | Except.ok a => some a
  | Except.error _ => none

/-- The `scan` closures of `InferenceLoader::new` (lines 665-682): pass items
through until the first error, which is written to the shared slot and ends
the stream.  Returns the yielded prefix and the slot contents. -/
def scan_stop_on_err {E A : Type} : List (Except E A) → List A × Option E
  | [] => ([], none)
  | Except.ok a :: rest =>
    let r := scan_stop_on_err rest
    (a :: r.1, r.2)
  | Except.error e :: _ => ([], some e)

/-- The item stream of `InferenceLoader` (lines 665-693) before batching:
text records pass through the first `scan`, the pipeline function `f` maps
each record to a list of inference items, its results pass through the second
`scan`, and the per-record item lists are flattened.  Under the pull-based
execution the slot ends up holding the error that terminated the stream: a
pipeline error if one occurred, otherwise the text-stream error if one was
reached. -/
def inference_stream {A B E : Type} (f : A → Except E (List B))
    (input : List (Except E A)) : List B × Option E :=
  let t := scan_stop_on_err input
  let p := scan_stop_on_err (t.1.map f)
  (join p.1, match p.2 with
    | some e => some e
    | none => t.2)

/-- A full run of `InferenceLoader`: the yielded items together with the
outcome of the terminal `__next__` call (lines 813-831), which reports the
captured error once the iterator is exhausted, or a normal end. -/
def inference_run {A B E : Type} (f : A → Except E (List B))
    (input : List (Except E A)) : List B × Except E Unit :=
  let s := inference_stream f input
  (s.1, match s.2 with
    | some e => Except.error e
    | none => Except.ok ())

/-- A full run of the training `DataLoader` item stream (lines 945-961 and
`__next__`, lines 1039-1055): per-record errors are dropped by
`filter_map(|d| d.ok())` both before and after the pipeline function `g`, no
error is recorded anywhere, and the terminal `__next__` always reports a
normal end. -/
def data_run {A B E : Type} (g : A → Except E B)
    (input : List (Except E A)) : List B × Except E Unit :=
  (((input.filterMap ok_of).map g).filterMap ok_of, Except.ok ())

/-- The `DataLoader` state from `src/data/mod.rs` (lines 836-860), restricted
to the fields the verified claims depend on. -/
structure DataLoader where
  shuffle : Bool
  sort : Bool
  seed : Option Nat
  skip : Nat
  limit : Nat
  rank : Nat
  world_size : Nat
  prefetch_factor : Nat
deriving DecidableEq, Repr

/-- `DataLoader::new` from `src/data/mod.rs` (lines 862-918): rejects
`shuffle` without a seed, clamps `prefetch_factor` to at least 1, defaults
`distributed` to `(0, 1)`, asserts `rank < world_size` (a panic), and defaults
`limit` to `usize::MAX` (modelled as `2 ^ 64 - 1`). -/
def DataLoader.new (shuffle sort : Bool) (seed : Option Nat) (skip : Nat)
    (limit : Option Nat) (distributed : Option (Nat × Nat))
    (prefetch_factor : Nat) : Except Str DataLoader :=
  if shuffle && seed.isNone then
    Except.error "seed cannot be None if shuffle is true".toList
  else
    let prefetch_factor := prefetch_factor.max 1
    let rank := (distributed.getD (0, 1)).1
    let world_size := (distributed.getD (0, 1)).2
    if rank < world_size then
      Except.ok ⟨shuffle, sort, seed, skip, limit.getD (2 ^ 64 - 1), rank,
        world_size, prefetch_factor⟩
    else
      Except.error "assertion failed: rank < world_size".toList

/-- The `min_items` computation of `DataLoader::init_iter` (lines 938-944),
as a function of the text iterator's `min_len`:
`text_iter.min_len().min(self.limit).saturating_sub(self.skip) / self.world_size`
(`saturating_sub` on `usize` is `Nat` subtraction). -/
def DataLoader.min_items_on (dl : DataLoader) (text_min_len : Nat) : Nat :=
  (text_min_len.min dl.limit - dl.skip) / dl.world_size

/-- An inference data generator (`Box<dyn DataGen>`), abstracted to the one
operation the verified claims read from it: its `min_len`. -/
structure InfGenerator where
  min_len : Nat
deriving DecidableEq, Repr

/-- `TextIterationStrategy` from the `loading` submodule (named in
`src/data/mod.rs`). -/
inductive TextIterationStrategy where
  | Sequential
  | Interleaved
  | Weighted
deriving DecidableEq, Repr

/-- Modelled from the spec (§4.2): `TextIterator` (in the `loading`
submodule, which is not among the sources) wraps `N ≥ 1` generators under a
strategy; construction of the iterator fails on an empty generator list. -/
structure TextIteratorModel where
  strategy : TextIterationStrategy
  min_lens : List Nat
deriving DecidableEq, Repr

/-- Modelled from the spec (§4.2): `TextIterator::new`. -/
def TextIterator.new (generators : List InfGenerator)
    (strategy : TextIterationStrategy) (_seed : Option Nat) :
    Except Str TextIteratorModel :=
  if generators.isEmpty then Except.error "no generators".toList
  else Except.ok ⟨strategy, generators.map InfGenerator.min_len⟩

/-- The observable construction results of `InferenceLoader` (lines 621-636):
the strategy its text iterator was built with, `min_items` and `splits`. -/
structure InferenceLoaderModel where
  strategy : TextIterationStrategy
  min_items : Nat
  splits : List Nat
deriving DecidableEq, Repr

/-- `InferenceLoader::new` from `src/data/mod.rs` (lines 638-700), restricted
to what it computes from the generators: `splits` is the per-generator
`min_len`, `min_items` their sum, `prefetch_factor` is clamped to at least 1,
and the text iterator is always built with the `Sequential` strategy (and the
batcher with `shuffle = false`).  The tokenizer, window and batching
parameters do not influence these fields and are omitted. -/
def InferenceLoader.new (generators : List InfGenerator)
    (prefetch_factor : Nat) (_sort : Bool) : Except Str InferenceLoaderModel :=
  let splits := generators.map InfGenerator.min_len
  let min_items := splits.sum
  let _prefetch_factor := prefetch_factor.max 1
  match TextIterator.new generators TextIterationStrategy.Sequential none with
  | Except.ok text_iter => Except.ok ⟨text_iter.strategy, min_items, splits⟩
  | Except.error e => Except.error e

/-! Helper lemmas about lists, folds and the flattening of uniform-width
rows into a row-major data vector. -/

theorem le_foldr_max {l : List Nat} {x : Nat} (h : x ∈ l) :
    x ≤ l.foldr Nat.max 0 := by
  induction l with
  | nil => cases h
  | cons a t ih =>
    rcases List.mem_cons.mp h with rfl | h'
    · exact Nat.le_max_left _ _
    · exact Nat.le_trans (ih h') (Nat.le_max_right _ _)

theorem foldr_max_mem {l : List Nat} (h : l ≠ []) : l.foldr Nat.max 0 ∈ l := by
  induction l with
  | nil => exact absurd rfl h
  | cons a t ih =>
    cases t with
    | nil => simp
    | cons b t' =>
      rcases Nat.le_total a ((b :: t').foldr Nat.max 0) with hle | hle
      · have he : (a :: b :: t').foldr Nat.max 0 = (b :: t').foldr Nat.max 0 := by
          simp only [List.foldr]
          exact Nat.max_eq_right hle
        rw [he]
        exact List.mem_cons_of_mem _ (ih (by simp))
      · have he : (a :: b :: t').foldr Nat.max 0 = a := by
          simp only [List.foldr]
          exact Nat.max_eq_left hle
        rw [he]
        exact List.mem_cons_self _ _

theorem getD_replicate {α : Type} (a d : α) (n i : Nat) :
    (List.replicate n a).getD i d = if i < n then a else d := by
  rw [List.getD_eq_getElem?_getD, List.getElem?_replicate]
  split <;> rfl

theorem getD_map_of_lt {α β : Type} (f : α → β) (l : List α) (d : β) (d' : α)
    {i : Nat} (h : i < l.length) : (l.map f).getD i d = f (l.getD i d') := by
  rw [List.getD_eq_getElem?_getD, List.getD_eq_getElem?_getD, List.getElem?_map,
    List.getElem?_eq_getElem h]
  rfl

theorem join_pair {α : Type} (a b : List α) : join [a, b] = a ++ b := by
  simp [join]

theorem join_length_uniform {α : Type} {w : Nat} :
    ∀ (rs : List (List α)), (∀ r ∈ rs, r.length = w) →
      (join rs).length = rs.length * w := by
  intro rs
  induction rs with
  | nil => intro _; simp [join]
  | cons r t ih =>
    intro h
    have h1 := h r (List.mem_cons_self _ _)
    have h2 := ih (fun x hx => h x (List.mem_cons_of_mem _ hx))
    simp only [join, List.length_append, List.length_cons, h1, h2, Nat.succ_mul]
    omega

theorem join_getD_uniform {α : Type} (d : α) {w : Nat} :
    ∀ (rs : List (List α)), (∀ r ∈ rs, r.length = w) → ∀ i j : Nat,
      i < rs.length → j < w →
      (join rs).getD (i * w + j) d = (rs.getD i []).getD j d := by
  intro rs
  induction rs with
  | nil => intro _ i j hi _; exact absurd hi (Nat.not_lt_zero i)
  | cons r t ih =>
    intro h i j hi hj
    have hr : r.length = w := h r (List.mem_cons_self _ _)
    cases i with
    | zero =>
      simp only [Nat.zero_mul, Nat.zero_add, join]
      rw [List.getD_append _ _ _ _ (by omega)]
      rfl
    | succ k =>
      have harith : (k + 1) * w + j = r.length + (k * w + j) := by
        rw [hr, Nat.succ_mul]; omega
      simp only [join]
      rw [harith, List.getD_append_right _ _ _ _ (Nat.le_add_right _ _),
        Nat.add_sub_cancel_left]
      exact ih (fun x hx => h x (List.mem_cons_of_mem _ hx)) k j
        (Nat.lt_of_succ_lt_succ hi) hj

theorem max_token_ids_le {ts : List Tokenization} {t : Tokenization}
    (h : t ∈ ts) : t.token_ids.length ≤ max_token_ids ts :=
  le_foldr_max (List.mem_map_of_mem _ h)

theorem pad_row_length {m pad : Nat} {t : Tokenization}
    (h : t.token_ids.length ≤ m) : (pad_row m pad t).length = m := by
  simp only [pad_row, join_pair, List.length_append, List.length_replicate]
  omega

theorem prepare_eq (ts : List Tokenization) (pad : Nat) :
    prepare ts pad = Except.ok
      (⟨ts.length, max_token_ids ts, join (ts.map (pad_row (max_token_ids ts) pad))⟩,
        ts.map (fun t => t.token_ids.length)) := by
  have hlen : (join (ts.map (pad_row (max_token_ids ts) pad))).length
      = ts.length * max_token_ids ts := by
    rw [join_length_uniform _ (fun r hr => ?_), List.length_map]
    obtain ⟨t, ht, rfl⟩ := List.mem_map.mp hr
    exact pad_row_length (max_token_ids_le ht)
  simp [prepare, from_shape_vec, hlen]

theorem getD_mem_of_lt {α : Type} {l : List α} {i : Nat} (h : i < l.length)
    (d : α) : l.getD i d ∈ l := by
  rw [List.getD_eq_getElem?_getD, List.getElem?_eq_getElem h]
  exact List.getElem_mem h

/-- Claim C1: for every non-empty batch, tensorization returns a token-id
matrix with one row per item and `max(lengths)` columns, where `lengths[i]`
equals the number of token ids of item `i`; for every row `i`, the first
`lengths[i]` cells equal that item's `tokenization.token_ids` in order, and
every cell at column `j ≥ lengths[i]` equals the tokenizer's
`pad_token_id`. -/
theorem prepare_pads_and_lengths (ts : List Tokenization) (pad : Nat)
    (_hne : ts ≠ []) :
    ∃ arr : Arr2 Nat,
      prepare ts pad = Except.ok (arr, ts.map (fun t => t.token_ids.length)) ∧
      arr.rows = ts.length ∧
      arr.cols = (ts.map (fun t => t.token_ids.length)).foldr Nat.max 0 ∧
      (∀ i j : Nat, i < ts.length → j < (ts.getD i default).token_ids.length →
        arr.entry 0 i j = (ts.getD i default).token_ids.getD j 0) ∧
      (∀ i j : Nat, i < ts.length → (ts.getD i default).token_ids.length ≤ j →
        j < arr.cols → arr.entry 0 i j = pad) := by
  have hrow : ∀ r ∈ ts.map (pad_row (max_token_ids ts) pad),
      r.length = max_token_ids ts := by
    intro r hr
    obtain ⟨t, ht, rfl⟩ := List.mem_map.mp hr
    exact pad_row_length (max_token_ids_le ht)
  refine ⟨⟨ts.length, max_token_ids ts,
    join (ts.map (pad_row (max_token_ids ts) pad))⟩,
    prepare_eq ts pad, rfl, rfl, ?_, ?_⟩
  · intro i j hi hj
    have hle : (ts.getD i default).token_ids.length ≤ max_token_ids ts :=
      max_token_ids_le (getD_mem_of_lt hi default)
    show (join (ts.map (pad_row (max_token_ids ts) pad))).getD
      (i * max_token_ids ts + j) 0 = _
    rw [join_getD_uniform 0 _ hrow i j (by simpa using hi) (by omega),
      getD_map_of_lt _ _ _ default hi]
    simp only [pad_row, join_pair]
    rw [List.getD_append _ _ _ _ hj]
  · intro i j hi hj hj2
    have hj2' : j < max_token_ids ts := hj2
    show (join (ts.map (pad_row (max_token_ids ts) pad))).getD
      (i * max_token_ids ts + j) 0 = _
    rw [join_getD_uniform 0 _ hrow i j (by simpa using hi) hj2',
      getD_map_of_lt _ _ _ default hi]
    simp only [pad_row, join_pair]
    rw [List.getD_append_right _ _ _ _ hj, getD_replicate, if_pos (by omega)]

/-- The concrete batch used to witness claim C1. -/
def ts_c1 : List Tokenization :=
  [⟨[1, 2], TokenizationInfo.Empty⟩, ⟨[3], TokenizationInfo.Empty⟩]

/-- Witness for claim C1 at a concrete two-item batch with pad token 9. -/
theorem prepare_pads_and_lengths_witness :
    ts_c1 ≠ [] ∧
    (∃ arr : Arr2 Nat,
      prepare ts_c1 9 = Except.ok (arr, ts_c1.map (fun t => t.token_ids.length)) ∧
      arr.rows = ts_c1.length ∧
      arr.cols = (ts_c1.map (fun t => t.token_ids.length)).foldr Nat.max 0 ∧
      (∀ i j : Nat, i < ts_c1.length → j < (ts_c1.getD i default).token_ids.length →
        arr.entry 0 i j = (ts_c1.getD i default).token_ids.getD j 0) ∧
      (∀ i j : Nat, i < ts_c1.length → (ts_c1.getD i default).token_ids.length ≤ j →
        j < arr.cols → arr.entry 0 i j = 9)) :=
  ⟨by decide, prepare_pads_and_lengths ts_c1 9 (by decide)⟩

/-- The token groups of a tokenization, when it carries any. -/
def lookup_group (t : Tokenization) (k : String) : Option (List Nat) :=
  match t.info with
  | TokenizationInfo.TokenGroups token_groups => token_groups.lookup k
  | TokenizationInfo.Empty => none

/-- The per-item group count as the spec words it (§4.5): the length of
`token_groups["code_point_groups"]` if present, else of
`token_groups["byte_groups"]` if present, else `len(token_ids)`, with the
lookup tried in exactly that order. -/
def spec_group_size (t : Tokenization) : Nat :=
  match lookup_group t "code_point_groups" with
  | some g => g.length
  | none =>
    match lookup_group t "byte_groups" with
    | some g => g.length
    | none => t.token_ids.length

/-- Claim C5: for every tokenization, the per-item group count used to
dimension label arrays equals the length of
`token_groups["code_point_groups"]` when that key is present, else the length
of `token_groups["byte_groups"]` when that key is present, else
`len(token_ids)`, with the lookup tried in exactly that order; `max_groups`
of a non-empty batch is the maximum of this value over its items. -/
theorem max_groups_matches_spec (ts : List Tokenization) (hne : ts ≠ []) :
    (∀ t : Tokenization, group_size t = spec_group_size t) ∧
    (∀ t ∈ ts, group_size t ≤ max_groups ts) ∧
    (∃ t ∈ ts, group_size t = max_groups ts) := by
  refine ⟨?_, ?_, ?_⟩
  · intro t
    unfold group_size spec_group_size lookup_group
    cases t.info with
    | Empty => rfl
    | TokenGroups tg =>
      cases hcp : tg.lookup "code_point_groups" with
      | some g => simp [hcp]
      | none =>
        cases hbg : tg.lookup "byte_groups" with
        | some g => simp [hcp, hbg]
        | none => simp [hcp, hbg]
  · intro t ht
    exact le_foldr_max (List.mem_map_of_mem _ ht)
  · have hmem : max_groups ts ∈ ts.map group_size :=
      foldr_max_mem (by simpa using hne)
    obtain ⟨t, ht, hv⟩ := List.mem_map.mp hmem
    exact ⟨t, ht, hv⟩

/-- The concrete batch used to witness claim C5: one tokenization with both
group keys (code-point groups win), one with only byte groups, one with
none. -/
def ts_c5 : List Tokenization :=
  [⟨[1, 2, 3], TokenizationInfo.TokenGroups
      [("byte_groups", [0, 0, 0, 0]), ("code_point_groups", [0, 0])]⟩,
   ⟨[4], TokenizationInfo.TokenGroups [("byte_groups", [0, 0, 0, 0, 0])]⟩,
   ⟨[5, 6], TokenizationInfo.Empty⟩]

/-- Witness for claim C5 at a concrete three-item batch. -/
theorem max_groups_matches_spec_witness :
    ts_c5 ≠ [] ∧
    ((∀ t : Tokenization, group_size t = spec_group_size t) ∧
     (∀ t ∈ ts_c5, group_size t ≤ max_groups ts_c5) ∧
     (∃ t ∈ ts_c5, group_size t = max_groups ts_c5)) :=
  ⟨by decide, max_groups_matches_spec ts_c5 (by decide)⟩

/-! Lemmas about the label-accumulation loop of `tensorize`. -/

/-- The length of the flat label row one item contributes (`0` for `Seq2Seq`,
whose row is never built because `todo!()` panics first). -/
def label_len (mg npt : Nat) : Label → Nat
  | Label.Classification _ => 1
  | Label.SeqClassification ls => npt + (ls.length + (mg - (npt + ls.length)))
  | Label.Seq2Seq _ => 0

/-- The label row of a `SeqClassification` item: `num_prefix_tokens` copies
of `-1`, the label ids, then `-1` up to `mg` (saturating). -/
def seq_row (mg npt : Nat) (it : Item) : List Int :=
  List.replicate npt (-1) ++
    (it.label.seq_labels ++
      List.replicate (mg - (npt + it.label.seq_labels.length)) (-1))

theorem seq_row_length {mg npt : Nat} {it : Item}
    (h : npt + it.label.seq_labels.length ≤ mg) :
    (seq_row mg npt it).length = mg := by
  simp only [seq_row, List.length_append, List.length_replicate]
  omega

theorem collect_labels_ok_of {mg npt : Nat} :
    ∀ {items : List Item}, (∀ it ∈ items, it.label.isSeq2Seq = false) →
      ∃ ls, collect_labels mg npt items = Except.ok ls ∧
        ls.length = (items.map (fun it => label_len mg npt it.label)).sum := by
  intro items
  induction items with
  | nil => intro _; exact ⟨[], rfl, by simp⟩
  | cons it rest ih =>
    intro h
    obtain ⟨r, hr, hrlen⟩ := ih (fun x hx => h x (List.mem_cons_of_mem _ hx))
    cases hl : it.label with
    | Classification x =>
      refine ⟨[x] ++ r, ?_, ?_⟩
      · simp only [collect_labels, item_labels, hl, hr]
      · simp [hrlen, hl, label_len]; omega
    | SeqClassification ls =>
      refine ⟨join [List.replicate npt (-1), ls,
        List.replicate (mg - (npt + ls.length)) (-1)] ++ r, ?_, ?_⟩
      · simp only [collect_labels, item_labels, hl, hr]
      · simp [join, hrlen, hl, label_len]; omega
    | Seq2Seq ls =>
      have := h it (List.mem_cons_self _ _)
      rw [hl] at this
      exact absurd this (by simp [Label.isSeq2Seq])

theorem collect_labels_error_of {mg npt : Nat} :
    ∀ {items : List Item}, (∃ it ∈ items, it.label.isSeq2Seq = true) →
      ∃ e, collect_labels mg npt items = Except.error e := by
  intro items
  induction items with
  | nil => intro h; obtain ⟨it, hmem, _⟩ := h; cases hmem
  | cons it rest ih =>
    intro h
    cases hl : it.label with
    | Seq2Seq ls =>
      exact ⟨RustPanic.raise "not yet implemented".toList,
        by simp only [collect_labels, item_labels, hl]⟩
    | Classification x =>
      obtain ⟨it', hmem, hseq⟩ := h
      rcases List.mem_cons.mp hmem with rfl | hmem'
      · rw [hl] at hseq; exact absurd hseq (by simp [Label.isSeq2Seq])
      · obtain ⟨e, he⟩ := ih ⟨it', hmem', hseq⟩
        exact ⟨e, by simp only [collect_labels, item_labels, hl, he]⟩
    | SeqClassification ls =>
      obtain ⟨it', hmem, hseq⟩ := h
      rcases List.mem_cons.mp hmem with rfl | hmem'
      · rw [hl] at hseq; exact absurd hseq (by simp [Label.isSeq2Seq])
      · obtain ⟨e, he⟩ := ih ⟨it', hmem', hseq⟩
        exact ⟨e, by simp only [collect_labels, item_labels, hl, he]⟩

theorem collect_labels_all_seq {mg npt : Nat} :
    ∀ {items : List Item}, (∀ it ∈ items, label_variant it.label = 1) →
      collect_labels mg npt items = Except.ok (join (items.map (seq_row mg npt))) := by
  intro items
  induction items with
  | nil => intro _; rfl
  | cons it rest ih =>
    intro h
    have hrest := ih (fun x hx => h x (List.mem_cons_of_mem _ hx))
    cases hl : it.label with
    | Classification x =>
      have := h it (List.mem_cons_self _ _); rw [hl] at this
      exact absurd this (by simp [label_variant])
    | Seq2Seq ls =>
      have := h it (List.mem_cons_self _ _); rw [hl] at this
      exact absurd this (by simp [label_variant])
    | SeqClassification ls =>
      simp only [collect_labels, item_labels, hl, hrest, List.map_cons, join]
      simp [join, seq_row, hl, Label.seq_labels]

/-- The flat label count of a batch, as `tensorize` accumulates it. -/
def flat_label_count (b : Batch Item) (tok : Tokenizer) : Nat :=
  (b.items.map (fun it =>
    label_len (max_groups (b.items.map Item.tokenization))
      tok.num_prefix_tokens it.label)).sum

/-- Characterization of when `tensorize` succeeds: the batch is non-empty, no
label is `Seq2Seq` (which hits `todo!()`), and the flat label count is
divisible by the batch size (the `n == batch_size` arm returns a 1-D array,
and `from_shape_vec(batch_size, n / batch_size)` succeeds exactly on
divisibility). -/
theorem tensorize_ok_characterization (b : Batch Item) (tok : Tokenizer) :
    (tensorize b tok).isOk = true ↔
      (b.items ≠ [] ∧ (∀ it ∈ b.items, it.label.isSeq2Seq = false) ∧
        b.items.length ∣ flat_label_count b tok) := by
  obtain ⟨items⟩ := b
  cases items with
  | nil =>
    constructor
    · intro h; exact Bool.noConfusion h
    · rintro ⟨hne, -, -⟩; exact absurd rfl hne
  | cons hd tl =>
    have hne : (hd :: tl) ≠ ([] : List Item) := by simp
    rw [tensorize, prepare_eq]
    simp only [List.isEmpty_cons, Bool.false_eq_true, if_false]
    dsimp only [Batch.len]
    by_cases hseq : ∀ it ∈ (hd :: tl), it.label.isSeq2Seq = false
    · obtain ⟨ls, hok, hlen⟩ := @collect_labels_ok_of
        (max_groups (List.map Item.tokenization (hd :: tl))) tok.num_prefix_tokens
        (hd :: tl) hseq
      rw [hok]
      dsimp only
      have h1 : ls.length = flat_label_count ⟨hd :: tl⟩ tok := hlen
      by_cases heq : ls.length = (hd :: tl).length
      · rw [if_pos heq]
        refine ⟨fun _ => ⟨hne, hseq, ?_⟩, fun _ => rfl⟩
        exact h1 ▸ heq ▸ dvd_refl ls.length
      · rw [if_neg heq, from_shape_vec]
        by_cases hdvd : (hd :: tl).length ∣ ls.length
        · rw [if_pos (Nat.mul_div_cancel' hdvd)]
          exact ⟨fun _ => ⟨hne, hseq, h1 ▸ hdvd⟩, fun _ => rfl⟩
        · have hc : ¬ ((hd :: tl).length * (ls.length / (hd :: tl).length) = ls.length) :=
            fun hc => hdvd ⟨ls.length / (hd :: tl).length, hc.symm⟩
          rw [if_neg hc]
          refine ⟨fun h => Bool.noConfusion h, ?_⟩
          rintro ⟨-, -, hdvd'⟩
          exact absurd (h1 ▸ hdvd') hdvd
    · obtain ⟨e, he⟩ := @collect_labels_error_of
        (max_groups (List.map Item.tokenization (hd :: tl))) tok.num_prefix_tokens
        (hd :: tl) (by
          push_neg at hseq
          obtain ⟨it, hmem, hval⟩ := hseq
          exact ⟨it, hmem, by simpa using hval⟩)
      rw [he]
      dsimp only
      refine ⟨fun h => Bool.noConfusion h, ?_⟩
      rintro ⟨-, hall, -⟩
      exact absurd hall hseq

/-- Claim C3 (amended): tensorization of a training batch fails exactly when
the batch is empty, or some item's label is `Seq2Seq`, or the flat label
count is not divisible by the batch size.  In particular a heterogeneous
batch whose flat label count happens to be divisible by the batch size
silently produces output (see the counterexample), so heterogeneity per se is
not what makes it fail. -/
theorem tensorize_fails_iff (b : Batch Item) (tok : Tokenizer) :
    (tensorize b tok).isOk = false ↔
      (b.items = [] ∨ (∃ it ∈ b.items, it.label.isSeq2Seq = true) ∨
        ¬ b.items.length ∣ flat_label_count b tok) := by
  have h := tensorize_ok_characterization b tok
  constructor
  · intro hf
    by_contra hcon
    push_neg at hcon
    obtain ⟨h1, h2, h3⟩ := hcon
    have hok : (tensorize b tok).isOk = true :=
      h.mpr ⟨h1, fun it hit => by simpa using h2 it hit, h3⟩
    rw [hf] at hok
    exact Bool.noConfusion hok
  · intro hcase
    cases hok : (tensorize b tok).isOk
    · rfl
    · obtain ⟨h1, h2, h3⟩ := h.mp hok
      rcases hcase with hc | hc | hc
      · exact absurd hc h1
      · obtain ⟨it, hmem, hseq⟩ := hc
        have hv := h2 it hmem
        rw [hseq] at hv
        exact Bool.noConfusion hv
      · exact absurd h3 hc

/-- The concrete heterogeneous batch refuting claim C3 as stated: a
`Classification` item next to a `SeqClassification` item. -/
def b_c3 : Batch Item := ⟨[
  ⟨⟨"a".toList, "a".toList, none⟩, ⟨[0], TokenizationInfo.Empty⟩,
    Label.Classification 0⟩,
  ⟨⟨"b".toList, "b".toList, none⟩, ⟨[0, 0, 0], TokenizationInfo.Empty⟩,
    Label.SeqClassification [1, 2, 3]⟩]⟩

/-- The tokenizer used by the claim C3 counterexample. -/
def tok_c3 : Tokenizer := ⟨0, 0⟩

/-- Counterexample to claim C3 as stated: this non-empty batch carries
heterogeneous label variants (`Classification` and `SeqClassification`), yet
`tensorize` succeeds — its flat label count (4) is divisible by the batch
size (2), so the reshape silently produces a 2×2 label array instead of
failing. -/
theorem tensorize_heterogeneous_succeeds :
    label_variant (b_c3.items.getD 0 default).label ≠
      label_variant (b_c3.items.getD 1 default).label ∧
    b_c3.items ≠ [] ∧
    (tensorize b_c3 tok_c3).isOk = true := by decide

/-- Claim C4: for every training batch that contains at least one item whose
label is the `Seq2Seq` variant, `tensorize` fails (the `todo!()` panic)
rather than returning a label array. -/
theorem tensorize_seq2seq_fails (b : Batch Item) (tok : Tokenizer)
    (h : ∃ it ∈ b.items, it.label.isSeq2Seq = true) :
    (tensorize b tok).isOk = false := by
  cases hok : (tensorize b tok).isOk
  · rfl
  · obtain ⟨-, h2, -⟩ := (tensorize_ok_characterization b tok).mp hok
    obtain ⟨it, hmem, hseq⟩ := h
    have hv := h2 it hmem
    rw [hseq] at hv
    exact Bool.noConfusion hv

/-- The concrete batch used to witness claim C4. -/
def b_c4 : Batch Item := ⟨[
  ⟨⟨"a".toList, "a".toList, none⟩, ⟨[1], TokenizationInfo.Empty⟩,
    Label.Seq2Seq [1, 2]⟩]⟩

/-- The tokenizer used by the claim C4 witness. -/
def tok_c4 : Tokenizer := ⟨0, 1⟩

/-- Witness for claim C4 at a concrete one-item `Seq2Seq` batch. -/
theorem tensorize_seq2seq_fails_witness :
    (∃ it ∈ b_c4.items, it.label.isSeq2Seq = true) ∧
    (tensorize b_c4 tok_c4).isOk = false :=
  ⟨by decide, tensorize_seq2seq_fails b_c4 tok_c4 (by decide)⟩

theorem mul_ne_self_of_ne_one {a m : Nat} (ha : 0 < a) (hm : m ≠ 1) :
    a * m ≠ a := by
  intro h
  have h1 : a * m = a * 1 := by rw [Nat.mul_one]; exact h
  exact hm (Nat.eq_of_mul_eq_mul_left ha h1)

theorem seq_row_getD {mg npt : Nat} {it : Item} (j : Nat)
    (hfit : npt + it.label.seq_labels.length ≤ mg) (hj : j < mg) :
    (seq_row mg npt it).getD j 0 =
      if j < npt then -1
      else if j < npt + it.label.seq_labels.length
      then it.label.seq_labels.getD (j - npt) 0
      else -1 := by
  unfold seq_row
  by_cases hj1 : j < npt
  · rw [if_pos hj1, List.getD_append _ _ _ _ (by rw [List.length_replicate]; omega),
      getD_replicate, if_pos hj1]
  · rw [if_neg hj1, List.getD_append_right _ _ _ _ (by rw [List.length_replicate]; omega),
      List.length_replicate]
    by_cases hj2 : j < npt + it.label.seq_labels.length
    · rw [if_pos hj2, List.getD_append _ _ _ _ (by omega)]
    · rw [if_neg hj2, List.getD_append_right _ _ _ _ (by omega), getD_replicate,
        if_pos (by omega)]

/-- Claim C2 (amended): for every non-empty training batch whose labels are
all `SequenceClassification`, in which each row fits
(`num_prefix_tokens + len(label_ids) ≤ max_groups`) and `max_groups ≠ 1`,
`tensorize` returns a 2-D int32 label array of shape
`[batch × max_groups]` whose row `i` consists of `num_prefix_tokens` copies
of `-1`, followed by the item's label ids, followed by `-1` in all trailing
positions up to `max_groups`.  (When `max_groups = 1` the same cells come
back as a 1-D array; when a row overflows the stated shape and row layout are
not guaranteed — the counterexample's overflowing batch even fails.  Overflow
does not always fail: with a divisible flat count the reshape succeeds, just
not with the shape and layout stated here.) -/
theorem tensorize_all_seqclassification (b : Batch Item) (tok : Tokenizer)
    (hne : b.items ≠ [])
    (hall : ∀ it ∈ b.items, label_variant it.label = 1)
    (hfit : ∀ it ∈ b.items, tok.num_prefix_tokens + it.label.seq_labels.length ≤
      max_groups (b.items.map Item.tokenization))
    (hmg : max_groups (b.items.map Item.tokenization) ≠ 1) :
    ∃ (tids : Arr2 Nat) (lens : List Nat) (data : List Int),
      tensorize b tok = Except.ok (tids, lens,
        LabelArr.two ⟨b.items.length, max_groups (b.items.map Item.tokenization), data⟩) ∧
      data.length = b.items.length * max_groups (b.items.map Item.tokenization) ∧
      ∀ i j : Nat, i < b.items.length →
        j < max_groups (b.items.map Item.tokenization) →
        data.getD (i * max_groups (b.items.map Item.tokenization) + j) 0 =
          (if j < tok.num_prefix_tokens then -1
           else if j < tok.num_prefix_tokens +
             ((b.items.getD i default).label).seq_labels.length
           then ((b.items.getD i default).label).seq_labels.getD
             (j - tok.num_prefix_tokens) 0
           else -1) := by
  obtain ⟨items⟩ := b
  have hbs : 0 < items.length := List.length_pos.mpr hne
  have hrowlen : ∀ r ∈ items.map (seq_row
      (max_groups (items.map Item.tokenization)) tok.num_prefix_tokens),
      r.length = max_groups (items.map Item.tokenization) := by
    intro r hr
    obtain ⟨it, hit, rfl⟩ := List.mem_map.mp hr
    exact seq_row_length (hfit it hit)
  have hlen : (join (items.map (seq_row
      (max_groups (items.map Item.tokenization)) tok.num_prefix_tokens))).length
      = items.length * max_groups (items.map Item.tokenization) := by
    rw [join_length_uniform _ hrowlen, List.length_map]
  rw [tensorize, if_neg (by simp [List.isEmpty_iff, hne]), prepare_eq]
  dsimp only
  rw [collect_labels_all_seq hall]
  dsimp only [Batch.len]
  have hne2 : (join (items.map (seq_row
      (max_groups (items.map Item.tokenization)) tok.num_prefix_tokens))).length
      ≠ items.length := by
    rw [hlen]
    exact mul_ne_self_of_ne_one hbs hmg
  rw [if_neg hne2]
  have hdiv : (join (items.map (seq_row
      (max_groups (items.map Item.tokenization)) tok.num_prefix_tokens))).length
      / items.length = max_groups (items.map Item.tokenization) := by
    rw [hlen]
    exact Nat.mul_div_cancel_left _ hbs
  rw [hdiv, from_shape_vec, if_pos hlen.symm]
  dsimp only
  refine ⟨_, _, _, rfl, hlen, ?_⟩
  intro i j hi hj
  rw [join_getD_uniform 0 _ hrowlen i j (by simpa using hi) hj,
    getD_map_of_lt _ _ _ default hi]
  exact seq_row_getD j (hfit _ (getD_mem_of_lt hi default)) hj

/-- The concrete batch used to witness claim C2: two `SeqClassification`
items with `max_groups = 2`. -/
def b_c2 : Batch Item := ⟨[
  ⟨⟨"a".toList, "a".toList, none⟩, ⟨[0, 0], TokenizationInfo.Empty⟩,
    Label.SeqClassification [1]⟩,
  ⟨⟨"b".toList, "b".toList, none⟩, ⟨[0, 0], TokenizationInfo.Empty⟩,
    Label.SeqClassification [2, 3]⟩]⟩

/-- The tokenizer used by the claim C2 witness. -/
def tok_c2 : Tokenizer := ⟨9, 0⟩

/-- Witness for claim C2 at a concrete two-item `SeqClassification` batch. -/
theorem tensorize_all_seqclassification_witness :
    b_c2.items ≠ [] ∧
    (∀ it ∈ b_c2.items, label_variant it.label = 1) ∧
    (∀ it ∈ b_c2.items, tok_c2.num_prefix_tokens + it.label.seq_labels.length ≤
      max_groups (b_c2.items.map Item.tokenization)) ∧
    max_groups (b_c2.items.map Item.tokenization) ≠ 1 ∧
    (∃ (tids : Arr2 Nat) (lens : List Nat) (data : List Int),
      tensorize b_c2 tok_c2 = Except.ok (tids, lens,
        LabelArr.two ⟨b_c2.items.length,
          max_groups (b_c2.items.map Item.tokenization), data⟩) ∧
      data.length = b_c2.items.length * max_groups (b_c2.items.map Item.tokenization) ∧
      ∀ i j : Nat, i < b_c2.items.length →
        j < max_groups (b_c2.items.map Item.tokenization) →
        data.getD (i * max_groups (b_c2.items.map Item.tokenization) + j) 0 =
          (if j < tok_c2.num_prefix_tokens then -1
           else if j < tok_c2.num_prefix_tokens +
             ((b_c2.items.getD i default).label).seq_labels.length
           then ((b_c2.items.getD i default).label).seq_labels.getD
             (j - tok_c2.num_prefix_tokens) 0
           else -1)) :=
  ⟨by decide, by decide, by decide, by decide,
    tensorize_all_seqclassification b_c2 tok_c2 (by decide) (by decide)
      (by decide) (by decide)⟩

/-- A one-item all-`SeqClassification` batch with `max_groups = 1`: the label
array comes back 1-dimensional. -/
def b_c2x : Batch Item := ⟨[
  ⟨⟨"a".toList, "a".toList, none⟩, ⟨[7], TokenizationInfo.Empty⟩,
    Label.SeqClassification [5]⟩]⟩

/-- A two-item all-`SeqClassification` batch whose first row overflows
(`num_prefix_tokens + len(label_ids) > max_groups`), making the flat label
count 5, which the batch size 2 does not divide: on this batch `tensorize`
panics. -/
def b_c2y : Batch Item := ⟨[
  ⟨⟨"a".toList, "a".toList, none⟩, ⟨[0, 0], TokenizationInfo.Empty⟩,
    Label.SeqClassification [1, 2, 3]⟩,
  ⟨⟨"b".toList, "b".toList, none⟩, ⟨[0, 0], TokenizationInfo.Empty⟩,
    Label.SeqClassification [4]⟩]⟩

/-- The tokenizer used by the claim C2 counterexample. -/
def tok_c2x : Tokenizer := ⟨0, 0⟩

/-- Counterexample to claim C2 as stated: `b_c2x` is a non-empty batch whose
labels are all `SequenceClassification`, yet `tensorize` returns a
1-dimensional label array (the flat label count equals the batch size when
`max_groups = 1`); and on `b_c2y` (also non-empty, all
`SequenceClassification`, but with an overflowing label row whose flat label
count 5 the batch size 2 does not divide) `tensorize` fails instead of
returning an array. -/
theorem tensorize_all_seqclassification_counterexample :
    (∀ it ∈ b_c2x.items, label_variant it.label = 1) ∧
    b_c2x.items ≠ [] ∧
    (ok_of (tensorize b_c2x tok_c2x)).map (fun r => r.2.2.is_two) = some false ∧
    (∀ it ∈ b_c2y.items, label_variant it.label = 1) ∧
    b_c2y.items ≠ [] ∧
    (tensorize b_c2y tok_c2x).isOk = false := by decide

/-- Claim C6 as stated, specialized to the training loader: if iteration ends
without yielding anything while a per-record error was observed, the terminal
call surfaces an error instead of signalling normal end. -/
def data_loader_surfaces_last_error : Prop :=
  ∀ input : List (Except Str Str),
    (data_run (fun s => Except.ok s) input).1 = [] →
    (∃ e, Except.error e ∈ input) →
    (data_run (fun s => Except.ok s) input).2 ≠ Except.ok ()

/-- Counterexample to claim C6 as stated: the training `DataLoader` has no
error side channel at all — its stream drops errors with
`filter_map(|d| d.ok())` and its terminal `__next__` returns a normal end
even when every record failed. -/
theorem data_loader_no_error_side_channel : ¬ data_loader_surfaces_last_error := by
  intro h
  exact h [Except.error "boom".toList] rfl
    ⟨"boom".toList, List.mem_singleton.mpr rfl⟩ rfl

theorem scan_stop_on_err_ok_prefix {E A : Type} (pre : List A) (e : E)
    (rest : List (Except E A)) :
    scan_stop_on_err (pre.map Except.ok ++ Except.error e :: rest) = (pre, some e) := by
  induction pre with
  | nil => rfl
  | cons a t ih => simp [scan_stop_on_err, ih]

theorem scan_stop_on_err_all_ok {E A B : Type} (f : A → Except E (List B)) :
    ∀ pre : List A, (∀ a ∈ pre, (f a).isOk = true) →
      scan_stop_on_err (pre.map f) =
        (pre.map (fun a => (ok_of (f a)).getD []), none) := by
  intro pre
  induction pre with
  | nil => intro _; rfl
  | cons a t ih =>
    intro h
    have ha := h a (List.mem_cons_self _ _)
    cases hf : f a with
    | error err => rw [hf] at ha; exact Bool.noConfusion ha
    | ok v =>
      simp [scan_stop_on_err, hf,
        ih (fun x hx => h x (List.mem_cons_of_mem _ hx)), ok_of]

/-- Claim C6 (amended): only the inference loader has the error slot.  There
an in-stream error — at any position — is not dropped: every record before it
is processed and yielded, the error terminates the stream (no later record is
yielded, however many follow), it is captured in the slot, and the terminal
`__next__` surfaces it even though items were yielded before it.  The
training loader drops per-record errors with no side channel and its terminal
`__next__` always signals a normal end. -/
theorem loader_error_channels (A B E : Type) (g : A → Except E B)
    (input : List (Except E A)) (f : A → Except E (List B)) (e : E)
    (pre : List A) (rest : List (Except E A))
    (hpre : ∀ a ∈ pre, (f a).isOk = true) :
    (data_run g input).2 = Except.ok () ∧
    inference_run f (pre.map Except.ok ++ Except.error e :: rest) =
      (join (pre.map (fun a => (ok_of (f a)).getD [])), Except.error e) := by
  refine ⟨rfl, ?_⟩
  rw [inference_run, inference_stream, scan_stop_on_err_ok_prefix]
  dsimp only
  rw [scan_stop_on_err_all_ok f pre hpre]

/-- The training pipeline function of the claim C6 witness. -/
def g_c6 : Nat → Except Nat Nat := fun n => Except.ok n

/-- The inference pipeline function of the claim C6 witness: one record
expands to one item. -/
def f_c6 : Nat → Except Nat (List Nat) := fun n => Except.ok [n + 10]

/-- Witness for claim C6: two good records are yielded, then the error 5
stops the stream (the trailing good record is never yielded) and is surfaced
terminally; the training run on an all-error input still ends normally. -/
theorem loader_error_channels_witness :
    (∀ a ∈ ([1, 2] : List Nat), (f_c6 a).isOk = true) ∧
    ((data_run g_c6 [Except.error 7]).2 = Except.ok () ∧
      inference_run f_c6
        (([1, 2] : List Nat).map Except.ok ++ Except.error 5 :: [Except.ok 9]) =
        (join (([1, 2] : List Nat).map (fun a => (ok_of (f_c6 a)).getD [])),
          Except.error 5)) :=
  ⟨by decide,
    loader_error_channels Nat Nat Nat g_c6 [Except.error 7] f_c6 5 [1, 2]
      [Except.ok 9] (by decide)⟩

/-- Claim C7: the `min_items` reported by a successfully constructed training
loader, as a function of the text iterator's `min_len`, equals
`(min(text.min_len, limit) − skip) / world_size` in (saturating) unsigned
integer arithmetic, with `limit` defaulting to `usize::MAX` and `world_size`
coming from the `distributed` pair. -/
theorem data_loader_min_items (shuffle sort : Bool) (seed : Option Nat)
    (skip : Nat) (limit : Option Nat) (distributed : Option (Nat × Nat))
    (prefetch_factor : Nat) (dl : DataLoader) (text_min_len : Nat)
    (h : DataLoader.new shuffle sort seed skip limit distributed prefetch_factor
      = Except.ok dl) :
    dl.min_items_on text_min_len =
      (Nat.min text_min_len (limit.getD (2 ^ 64 - 1)) - skip)
        / (distributed.getD (0, 1)).2 := by
  unfold DataLoader.new at h
  by_cases h1 : (shuffle && seed.isNone) = true
  · rw [if_pos h1] at h
    exact Except.noConfusion h
  · rw [if_neg h1] at h
    dsimp only at h
    by_cases h2 : (distributed.getD (0, 1)).1 < (distributed.getD (0, 1)).2
    · rw [if_pos h2] at h
      injection h with h3
      subst h3
      rfl
    · rw [if_neg h2] at h
      exact Except.noConfusion h

/-- The concrete loader used to witness claim C7. -/
def dl_c7 : DataLoader := ⟨false, false, none, 3, 10, 0, 2, 4⟩

/-- Witness for claim C7 at a concrete construction
(skip 3, limit 10, world size 2, min_len 7). -/
theorem data_loader_min_items_witness :
    DataLoader.new false false none 3 (some 10) (some (0, 2)) 4 = Except.ok dl_c7 ∧
    dl_c7.min_items_on 7 =
      (Nat.min 7 ((some 10).getD (2 ^ 64 - 1)) - 3) / ((some (0, 2)).getD (0, 1)).2 :=
  ⟨rfl,
    data_loader_min_items false false none 3 (some 10) (some (0, 2)) 4 dl_c7 7 rfl⟩

/-- Claim C8 (amended): `DataLoader::new` succeeds exactly when it is not the
case that `shuffle` is set without a seed, and `rank < world_size`; the
combination `sort = true, shuffle = false` is never checked and is accepted
(the inference loader likewise always batches with `shuffle = false` while
exposing `sort`). -/
theorem data_loader_new_isOk_iff (shuffle sort : Bool) (seed : Option Nat)
    (skip : Nat) (limit : Option Nat) (distributed : Option (Nat × Nat))
    (prefetch_factor : Nat) :
    (DataLoader.new shuffle sort seed skip limit distributed prefetch_factor).isOk
      = true ↔
      (¬(shuffle = true ∧ seed = none) ∧
        (distributed.getD (0, 1)).1 < (distributed.getD (0, 1)).2) := by
  unfold DataLoader.new
  by_cases h1 : (shuffle && seed.isNone) = true
  · rw [if_pos h1]
    constructor
    · intro hfalse; exact Bool.noConfusion hfalse
    · rintro ⟨hns, -⟩
      obtain ⟨hs, hn⟩ := Bool.and_eq_true_iff.mp h1
      exact absurd ⟨hs, Option.isNone_iff_eq_none.mp hn⟩ hns
  · rw [if_neg h1]
    dsimp only
    by_cases h2 : (distributed.getD (0, 1)).1 < (distributed.getD (0, 1)).2
    · rw [if_pos h2]
      refine ⟨fun _ => ⟨?_, h2⟩, fun _ => rfl⟩
      rintro ⟨hs, hn⟩
      exact h1 (by rw [hs, hn]; rfl)
    · rw [if_neg h2]
      constructor
      · intro hfalse; exact Bool.noConfusion hfalse
      · rintro ⟨-, hlt⟩; exact absurd hlt h2

/-- Counterexample to claim C8 as stated: constructing the training loader
with `shuffle = false` and `sort = true` (first two arguments) succeeds — no
configuration error is raised; the inference loader likewise accepts
`sort = true` (it has no shuffle parameter at all). -/
theorem data_loader_accepts_sort_without_shuffle :
    (DataLoader.new false true none 0 none none 4).isOk = true ∧
    (InferenceLoader.new [⟨1⟩] 4 true).isOk = true := by decide

theorem parse_detections_tokens_ok {toks : List Str}
    (h : ∀ t ∈ toks, (parse_u8 (trim t)).isSome = true) :
    parse_detections_tokens toks =
      Except.ok (toks.map (fun t => (parse_u8 (trim t)).getD 0 != 0)) := by
  induction toks with
  | nil => rfl
  | cons t rest ih =>
    obtain ⟨n, hn⟩ := Option.isSome_iff_exists.mp (h t (List.mem_cons_self _ _))
    rw [parse_detections_tokens, hn, ih (fun x hx => h x (List.mem_cons_of_mem _ hx))]
    simp [hn]

theorem parse_detections_tokens_error {toks : List Str}
    (h : ∃ t ∈ toks, parse_u8 (trim t) = none) :
    ∃ e, parse_detections_tokens toks = Except.error e := by
  induction toks with
  | nil => obtain ⟨t, hmem, -⟩ := h; cases hmem
  | cons t rest ih =>
    cases hp : parse_u8 (trim t) with
    | none =>
      exact ⟨RustPanic.raise ("failed to parse ".toList ++ t ++ " to integer".toList),
        by rw [parse_detections_tokens, hp]⟩
    | some n =>
      obtain ⟨t', hmem, hnone⟩ := h
      rcases List.mem_cons.mp hmem with rfl | hmem'
      · rw [hp] at hnone; exact Option.noConfusion hnone
      · obtain ⟨e, he⟩ := ih ⟨t', hmem', hnone⟩
        exact ⟨e, by rw [parse_detections_tokens, hp, he]⟩

/-- Claim C9 (amended): for a `text_detections` line with exactly one tab,
the detections field is split on whitespace and entry `i` is `true` iff token
`i` parses as a nonzero unsigned 8-bit integer; but a token that does not
parse triggers a panic of the whole process (the `expect` in
`parse_detections`) — `from_str` has no error channel, so the failure is
never emitted as a per-line `Err` record. -/
theorem from_str_detections (s : Str) (h2 : (split_tab s).length = 2) :
    ((∀ t ∈ split_pred Char.isWhitespace ((split_tab s).getD 1 []),
        (parse_u8 (trim t)).isSome = true) →
      InferenceData.from_str s InferenceDataFileFormat.TextPlusDetections =
        Except.ok ⟨trim ((split_tab s).getD 0 []),
          some ((split_pred Char.isWhitespace ((split_tab s).getD 1 [])).map
            (fun t => (parse_u8 (trim t)).getD 0 != 0)), none⟩) ∧
    ((∃ t ∈ split_pred Char.isWhitespace ((split_tab s).getD 1 []),
        parse_u8 (trim t) = none) →
      (InferenceData.from_str s InferenceDataFileFormat.TextPlusDetections).isOk
        = false) := by
  constructor
  · intro hall
    rw [InferenceData.from_str]
    rw [if_pos h2, parse_detections, parse_detections_tokens_ok hall]
  · intro hex
    obtain ⟨e, he⟩ := parse_detections_tokens_error hex
    rw [InferenceData.from_str]
    rw [if_pos h2, parse_detections, he]
    rfl

/-- The concrete line used to witness claim C9. -/
def line_c9 : Str := "hello\t1 0 2".toList

/-- Witness for claim C9 at a concrete line whose detections field is
"1 0 2". -/
theorem from_str_detections_witness :
    (split_tab line_c9).length = 2 ∧
    (((∀ t ∈ split_pred Char.isWhitespace ((split_tab line_c9).getD 1 []),
        (parse_u8 (trim t)).isSome = true) →
      InferenceData.from_str line_c9 InferenceDataFileFormat.TextPlusDetections =
        Except.ok ⟨trim ((split_tab line_c9).getD 0 []),
          some ((split_pred Char.isWhitespace ((split_tab line_c9).getD 1 [])).map
            (fun t => (parse_u8 (trim t)).getD 0 != 0)), none⟩) ∧
    ((∃ t ∈ split_pred Char.isWhitespace ((split_tab line_c9).getD 1 []),
        parse_u8 (trim t) = none) →
      (InferenceData.from_str line_c9 InferenceDataFileFormat.TextPlusDetections).isOk
        = false)) :=
  ⟨by decide, from_str_detections line_c9 (by decide)⟩

/-- The concrete three-line input of the claim C9 counterexample; the second
line's detections field holds the unparsable token "x". -/
def lines_c9 : List Str := ["a\t1 0".toList, "b\tx".toList, "c\t0".toList]

/-- Counterexample to claim C9 as stated: were the parse error fatal only for
its line and emitted as an `Err` record, the stream would hold one record per
line with the first and third lines intact (`spec_lines_to_records`); the
code instead panics in `parse_detections` (`expect`), aborting the whole
stream — the third line is never turned into a record
(`lines_to_records`). -/
theorem detections_parse_error_is_panic_not_record :
    spec_lines_to_records lines_c9 InferenceDataFileFormat.TextPlusDetections =
      [Except.ok ⟨"a".toList, some [true, false], none⟩,
       Except.error (RustPanic.raise
         ("failed to parse ".toList ++ "x".toList ++ " to integer".toList)),
       Except.ok ⟨"c".toList, some [false], none⟩] ∧
    lines_to_records lines_c9 InferenceDataFileFormat.TextPlusDetections =
      Except.error (RustPanic.raise
        ("failed to parse ".toList ++ "x".toList ++ " to integer".toList)) :=
  ⟨rfl, rfl⟩

/-- Claim C10: every successful `InferenceLoader` construction composes its
generators under the `Sequential` strategy, reports `min_items` equal to the
sum of the generators' `min_len` values, and lists each generator's `min_len`
in source order in `splits`. -/
theorem inference_loader_sequential (generators : List InfGenerator)
    (prefetch_factor : Nat) (sort : Bool) (L : InferenceLoaderModel)
    (h : InferenceLoader.new generators prefetch_factor sort = Except.ok L) :
    L.strategy = TextIterationStrategy.Sequential ∧
    L.min_items = (generators.map InfGenerator.min_len).sum ∧
    L.splits = generators.map InfGenerator.min_len := by
  unfold InferenceLoader.new TextIterator.new at h
  by_cases hg : generators.isEmpty = true
  · rw [if_pos hg] at h
    exact Except.noConfusion h
  · rw [if_neg hg] at h
    dsimp only at h
    injection h with h3
    subst h3
    exact ⟨rfl, rfl, rfl⟩

/-- The concrete generator list used to witness claim C10. -/
def gens_c10 : List InfGenerator := [⟨2⟩, ⟨3⟩]

/-- The loader that `InferenceLoader.new` builds from `gens_c10`. -/
def loader_c10 : InferenceLoaderModel :=
  ⟨TextIterationStrategy.Sequential, 5, [2, 3]⟩

/-- Witness for claim C10 at a concrete two-generator construction. -/
theorem inference_loader_sequential_witness :
    InferenceLoader.new gens_c10 4 false = Except.ok loader_c10 ∧
    (loader_c10.strategy = TextIterationStrategy.Sequential ∧
      loader_c10.min_items = (gens_c10.map InfGenerator.min_len).sum ∧
      loader_c10.splits = gens_c10.map InfGenerator.min_len) :=
  ⟨rfl, inference_loader_sequential gens_c10 4 false loader_c10 rfl⟩

end TCU
